import Mathlib

/-!
Verification of the combination-generation and streaming execution pipeline of
the `blackbox` exploratory test harness (`cmd/blackbox/main.go`).

The Go functions under verification are shallowly embedded as pure Lean
functions.  External effects (the spreadsheet service, the child process, the
JSON codec and the pipe writes) are modelled as oracle arguments: each oracle
value stands for the outcome the external world produced at that call site,
and the embedding reproduces exactly how `main.go` combines those outcomes.
Go maps of type `map[string]string` are modelled as association lists
`List (String × String)`; Go's arbitrary map iteration order is irrelevant to
every property proved here because the code sorts the keys before use.
-/

namespace Blackbox

/-- Go `strings.Trim(s, cutset)`: removes all leading and trailing characters
of `s` that occur in `cutset`. -/
def goTrim (cutset : List Char) (s : String) : String :=
  String.mk (((s.data.dropWhile (fun c => c ∈ cutset)).reverse.dropWhile
    (fun c => c ∈ cutset)).reverse)

/-- `ExtractExamples` (main.go lines 134-143): split the cell on commas, trim
each piece of spaces and tabs, and keep the non-empty pieces in order. -/
def ExtractExamples (examplesCell : String) : List String :=
  (examplesCell.splitOn ",").filterMap (fun piece =>
    let trimmed := goTrim [' ', '\t'] piece
    if trimmed = "" then none else some trimmed)

/-- `GetInputSets` (main.go lines 145-163).  The Go function returns `[]` for
an empty input, appends one singleton per element when exactly one set is
given, and then *always* falls through to the general head/tail recursion
(which contributes nothing when the tail is empty, because the recursive call
on `[]` returns `[]`).  `Go`'s `append([]string{item}, subitem...)` is
`item :: subitem`. -/
def GetInputSets : List (List String) → List (List String)
  | [] => []
  | head :: tail =>
    let singles := if tail.isEmpty then head.map (fun item => [item]) else []
    singles ++ head.flatMap (fun item => (GetInputSets tail).map (fun subitem => item :: subitem))

theorem GetInputSets_nil : GetInputSets [] = [] := rfl

theorem GetInputSets_singleton (s : List String) :
    GetInputSets [s] = s.map (fun x => [x]) := by
  simp [GetInputSets]

theorem GetInputSets_cons_of_ne (h : List String) (t : List (List String)) (ht : t ≠ []) :
    GetInputSets (h :: t) = h.flatMap (fun v => (GetInputSets t).map (fun u => v :: u)) := by
  simp [GetInputSets, List.isEmpty_iff, ht]

theorem length_flatMap_cons (h : List String) (R : List (List String)) :
    (h.flatMap (fun v => R.map (fun u => v :: u))).length = h.length * R.length := by
  induction h with
  | nil => simp
  | cons a h ih => simp [ih, Nat.succ_mul, Nat.add_comm]

theorem GetInputSets_length : ∀ (L : List (List String)), L ≠ [] →
    (GetInputSets L).length = (L.map List.length).prod
  | [], h => absurd rfl h
  | [s], _ => by simp [GetInputSets_singleton]
  | h :: s :: t, _ => by
    rw [GetInputSets_cons_of_ne _ _ (by simp), length_flatMap_cons,
      GetInputSets_length (s :: t) (by simp)]
    simp

theorem GetInputSets_mem_length : ∀ (L : List (List String)) (r : List String),
    r ∈ GetInputSets L → r.length = L.length
  | [], r => by simp [GetInputSets]
  | [s], r => by
    rw [GetInputSets_singleton]
    intro hr
    obtain ⟨x, -, rfl⟩ := List.mem_map.1 hr
    rfl
  | h :: s :: t, r => by
    rw [GetInputSets_cons_of_ne _ _ (by simp)]
    intro hr
    obtain ⟨v, -, hv⟩ := List.mem_flatMap.1 hr
    obtain ⟨u, hu, rfl⟩ := List.mem_map.1 hv
    simp [GetInputSets_mem_length (s :: t) u hu]

theorem GetInputSets_mem_iff : ∀ (L : List (List String)), L ≠ [] →
    ∀ (r : List String), (r ∈ GetInputSets L ↔ List.Forall₂ (fun v s => v ∈ s) r L)
  | [], h => absurd rfl h
  | [s], _ => by
    intro r
    rw [GetInputSets_singleton]
    simp [List.forall₂_cons_right_iff, List.forall₂_nil_right_iff, eq_comm, and_comm]
  | h :: s :: t, _ => by
    intro r
    rw [GetInputSets_cons_of_ne _ _ (by simp)]
    simp only [List.mem_flatMap, List.mem_map, List.forall₂_cons_right_iff,
      GetInputSets_mem_iff (s :: t) (by simp)]
    constructor
    · rintro ⟨v, hv, u, hu, rfl⟩
      exact ⟨v, u, hv, hu, rfl⟩
    · rintro ⟨v, u, hv, hu, rfl⟩
      exact ⟨v, hv, u, hu, rfl⟩

theorem nodup_flatMap_cons {h : List String} {R : List (List String)}
    (hh : h.Nodup) (hR : R.Nodup) :
    (h.flatMap (fun v => R.map (fun u => v :: u))).Nodup := by
  rw [List.nodup_flatMap]
  refine ⟨fun v _ => hR.map (fun u₁ u₂ e => by injection e), ?_⟩
  refine hh.imp (fun hab => ?_)
  intro r hra hrb
  obtain ⟨u, -, rfl⟩ := List.mem_map.1 hra
  obtain ⟨u', -, e⟩ := List.mem_map.1 hrb
  injection e with e1 _
  exact hab e1.symm

theorem GetInputSets_nodup : ∀ (L : List (List String)),
    (∀ s ∈ L, s.Nodup) → (GetInputSets L).Nodup
  | [], _ => by simp [GetInputSets]
  | [s], hs => by
    rw [GetInputSets_singleton]
    exact (hs s (by simp)).map (fun a b e => by injection e)
  | h :: s :: t, hs => by
    rw [GetInputSets_cons_of_ne _ _ (by simp)]
    exact nodup_flatMap_cons (hs h (by simp))
      (GetInputSets_nodup (s :: t) (fun u hu => hs u (List.mem_cons_of_mem _ hu)))

/-- C1 (counterexample): at the empty list of example sets the claim fails — the
mathematical cartesian product of zero sets has exactly one (empty) tuple, while
`GetInputSets` returns zero tuples. -/
theorem c1_empty_product_counterexample :
    ¬ (GetInputSets []).length = (([] : List (List String)).map List.length).prod := by
  decide

/-- C1 (amended): for every *non-empty* ordered list of n non-empty example sets with
sizes s1..sn, `GetInputSets` produces exactly s1*...*sn tuples, each of length n, a
tuple is produced iff it picks one member from each set in order, and when the sets
are duplicate-free the produced list is duplicate-free — so the multiset of produced
tuples is exactly the mathematical cartesian product. -/
theorem c1_cartesian_product (L : List (List String)) (hne : L ≠ [])
    (hsets : ∀ s ∈ L, s ≠ []) :
    (GetInputSets L).length = (L.map List.length).prod ∧
    (∀ r ∈ GetInputSets L, r.length = L.length) ∧
    (∀ r, r ∈ GetInputSets L ↔ List.Forall₂ (fun v s => v ∈ s) r L) ∧
    ((∀ s ∈ L, s.Nodup) → (GetInputSets L).Nodup) :=
  ⟨GetInputSets_length L hne, fun r => GetInputSets_mem_length L r,
    GetInputSets_mem_iff L hne, GetInputSets_nodup L⟩

/-- Witness for C1 at the setup of spec scenario A. -/
theorem c1_cartesian_product_witness :
    (GetInputSets [["1", "2"], ["a", "b"]]).length =
      (([["1", "2"], ["a", "b"]] : List (List String)).map List.length).prod :=
  (c1_cartesian_product [["1", "2"], ["a", "b"]] (by decide) (by decide)).1

/-- C2: zero example sets produce zero tuples, and a single example set of k values
produces exactly its k values as singleton tuples in order — no double-counting,
because the fall-through general recursion contributes nothing on an empty tail. -/
theorem c2_degenerate_cases :
    GetInputSets [] = [] ∧
    ∀ s : List String, GetInputSets [s] = s.map (fun x => [x]) :=
  ⟨rfl, GetInputSets_singleton⟩

/-- C3 (counterexample): the head/tail recurrence stated for *every* split fails when
the tail is empty — `GetInputSets [["1"]]` is `[["1"]]`, not the empty expansion the
recurrence over `GetInputSets []` would give. -/
theorem c3_recurrence_counterexample :
    GetInputSets [["1"]] ≠
      ["1"].flatMap (fun v => (GetInputSets []).map (fun u => v :: u)) := by
  decide

/-- C3 (amended): for every split with a non-empty tail, the product of head and
tail-sets lists, for each value v of head in order, every tuple of the tail product
prefixed by v; and on `[["1","2"],["a","b"]]` the enumeration is exactly
`["1","a"],["1","b"],["2","a"],["2","b"]`. -/
theorem c3_row_major_order :
    (∀ (h : List String) (t : List (List String)), t ≠ [] →
      GetInputSets (h :: t) = h.flatMap (fun v => (GetInputSets t).map (fun u => v :: u))) ∧
    GetInputSets [["1", "2"], ["a", "b"]] =
      [["1", "a"], ["1", "b"], ["2", "a"], ["2", "b"]] :=
  ⟨GetInputSets_cons_of_ne, by decide⟩

/-- Witness for C3 at the spec's scenario A input. -/
theorem c3_row_major_order_witness :
    GetInputSets [["1", "2"], ["a", "b"]] =
      ["1", "2"].flatMap (fun v => (GetInputSets [["a", "b"]]).map (fun u => v :: u)) :=
  c3_row_major_order.1 ["1", "2"] [["a", "b"]] (by decide)

/-- A decoded child-program output, Go's `map[string]string` as an association
list.  Go's arbitrary map iteration order does not matter below: the keys are
sorted before any use. -/
abbrev OutputMap := List (String × String)

/-- `RecordSortedKeys` (main.go lines 187-194): collect the map's keys and sort
them ascending, as Go's `sort.Strings` does. -/
def RecordSortedKeys (output : OutputMap) : List String :=
  List.insertionSort (fun a b => a ≤ b) (output.map Prod.fst)

/-- Go map indexing `output[key]`: the stored value, or `""` when the key is
absent (Go's zero value for `string`). -/
def mapGet (output : OutputMap) (key : String) : String :=
  ((output.find? (fun p => p.1 == key)).map Prod.snd).getD ""

theorem RecordSortedKeys_length (m : OutputMap) :
    (RecordSortedKeys m).length = m.length := by
  simp [RecordSortedKeys, List.length_insertionSort]

theorem RecordSortedKeys_ne_nil {m : OutputMap} (hm : m ≠ []) :
    RecordSortedKeys m ≠ [] := by
  intro h
  apply hm
  have hl := RecordSortedKeys_length m
  rw [h] at hl
  simpa using List.length_eq_zero.1 hl.symm

theorem mapGet_of_not_mem (m : OutputMap) (k : String) (h : ∀ p ∈ m, p.1 ≠ k) :
    mapGet m k = "" := by
  unfold mapGet
  rw [List.find?_eq_none.2 (fun p hp => by simpa using h p hp)]
  rfl

/-- Instrumented result of one `RunExploration` run: the tuples handed to the
invoker in order, the rows sent on the result channel in order (tagged `true`
exactly when sent by the header branch of main.go line 267), and the returned
error. -/
structure ExplorationTrace where
  invoked : List (List String)
  rows : List (Bool × List String)
  err : Option String
  deriving DecidableEq, Repr

/-- The loop of `RunExploration` (main.go lines 253-276) with the mutable
`outputVars` threaded explicitly.  `invoke` is the oracle standing for
`RunBlackBoxCmd progPath varNames ·` — the outcome the child process produced
for each tuple. -/
def runExplorationLoop (invoke : List String → Except String OutputMap)
    (varNames : List String) :
    List String → List (List String) → ExplorationTrace
  | _, [] => ⟨[], [], none⟩
  | outputVars, inputSet :: rest =>
    match invoke inputSet with
    | .error e => ⟨[inputSet], [], some e⟩
    | .ok outputMap =>
      let header : List (Bool × List String) :=
        if outputVars = [] then [(true, varNames ++ RecordSortedKeys outputMap)] else []
      let outputVars' := if outputVars = [] then RecordSortedKeys outputMap else outputVars
      let resultLine := inputSet ++ outputVars'.map (fun ov => mapGet outputMap ov)
      let t := runExplorationLoop invoke varNames outputVars' rest
      ⟨inputSet :: t.invoked, header ++ (false, resultLine) :: t.rows, t.err⟩

/-- `RunExploration` starts with an empty (unknown) output-column set. -/
def RunExploration (invoke : List String → Except String OutputMap)
    (varNames : List String) (inputSets : List (List String)) : ExplorationTrace :=
  runExplorationLoop invoke varNames [] inputSets

/-- Spec-side characterization (spec section 4.3, steps 2-3, with the column set
already fixed): one data row per successful invocation — its inputs followed by
the fixed columns looked up in that invocation's record — stopping at the first
error. -/
def expectedDataRows (invoke : List String → Except String OutputMap)
    (ov : List String) : List (List String) → List (Bool × List String)
  | [] => []
  | s :: rest =>
    match invoke s with
    | .error _ => []
    | .ok m => (false, s ++ ov.map (fun k => mapGet m k)) :: expectedDataRows invoke ov rest

theorem runExplorationLoop_rows_of_ne (invoke : List String → Except String OutputMap)
    (varNames : List String) (ov : List String) (hov : ov ≠ []) :
    ∀ L, (runExplorationLoop invoke varNames ov L).rows = expectedDataRows invoke ov L
  | [] => rfl
  | s :: rest => by
    unfold runExplorationLoop expectedDataRows
    cases hinv : invoke s with
    | error e => rfl
    | ok m =>
      dsimp only
      rw [if_neg hov, if_neg hov, runExplorationLoop_rows_of_ne invoke varNames ov hov rest]
      simp

theorem expectedDataRows_no_header (invoke : List String → Except String OutputMap)
    (ov : List String) :
    ∀ L, (expectedDataRows invoke ov L).countP (fun r => r.1) = 0
  | [] => rfl
  | s :: rest => by
    unfold expectedDataRows
    cases hinv : invoke s with
    | error e => rfl
    | ok m =>
      simp [List.countP_cons, expectedDataRows_no_header invoke ov rest]

/-- Oracle for the C4 counterexample: the first tuple yields a record with an
empty field set, every later tuple a one-field record. -/
def c4Invoke : List String → Except String OutputMap :=
  fun s => if s = ["x1"] then .ok [] else .ok [("a", "1")]

/-- C4 (counterexample): when the first successful OutputRecord has an empty
field set, the driver re-enters the header branch on the next record — two
header-branch rows are emitted, the second after a data row, so the header is
not emitted exactly once and first. -/
theorem c4_header_counterexample :
    (RunExploration c4Invoke ["v"] [["x1"], ["x2"]]).rows =
      [(true, ["v"]), (false, ["x1"]), (true, ["v", "a"]), (false, ["x2", "1"])] ∧
    (RunExploration c4Invoke ["v"] [["x1"], ["x2"]]).rows.countP (fun r => r.1) = 2 := by
  constructor <;> rfl

/-- C4 (amended): in every run whose first invocation succeeds with a record
having at least one field, exactly one header row is emitted and it is the
first row on the channel. -/
theorem c4_single_header (invoke : List String → Except String OutputMap)
    (varNames s : List String) (rest : List (List String)) (m : OutputMap)
    (hs : invoke s = .ok m) (hm : m ≠ []) :
    (RunExploration invoke varNames (s :: rest)).rows.head? =
      some (true, varNames ++ RecordSortedKeys m) ∧
    (RunExploration invoke varNames (s :: rest)).rows.countP (fun r => r.1) = 1 := by
  have hov : RecordSortedKeys m ≠ [] := RecordSortedKeys_ne_nil hm
  unfold RunExploration runExplorationLoop
  rw [hs]
  dsimp only
  rw [if_pos rfl, if_pos rfl,
    runExplorationLoop_rows_of_ne invoke varNames (RecordSortedKeys m) hov rest]
  simp [List.countP_cons, expectedDataRows_no_header invoke (RecordSortedKeys m) rest]

/-- Concrete well-behaved oracle used by the C4 and C5 witnesses. -/
def demoInvoke : List String → Except String OutputMap :=
  fun _ => .ok [("sum", "3")]

/-- Witness for C4 on a two-tuple run with a one-field record. -/
theorem c4_single_header_witness :
    (RunExploration demoInvoke ["x"] [["1"], ["2"]]).rows.head? =
      some (true, ["x", "sum"]) ∧
    (RunExploration demoInvoke ["x"] [["1"], ["2"]]).rows.countP (fun r => r.1) = 1 :=
  c4_single_header demoInvoke ["x"] ["1"] [["2"]] [("sum", "3")] rfl (by decide)

/-- Oracle for the C5 counterexample: the first tuple yields a record with an
empty field set, every later tuple a record with the new field `b`. -/
def c5Invoke : List String → Except String OutputMap :=
  fun s => if s = ["y1"] then .ok [] else .ok [("b", "2")]

/-- C5 (counterexample): with a first successful OutputRecord whose field set is
empty, the column order is re-derived from the second record — the field `b`,
absent from the first record, is emitted (value `"2"` in the last row), contrary
to the claim that such fields are never emitted. -/
theorem c5_columns_counterexample :
    c5Invoke ["y1"] = .ok [] ∧
    (RunExploration c5Invoke ["w"] [["y1"], ["y2"]]).rows =
      [(true, ["w"]), (false, ["y1"]), (true, ["w", "b"]), (false, ["y2", "2"])] := by
  constructor <;> rfl

/-- C5 (amended): in every run whose first invocation succeeds with a non-empty
record `m`, the column order for all data rows is the sorted field names of `m`:
the emitted rows are the header, then per successful invocation its inputs
followed by exactly those columns looked up in that invocation's record — so a
field introduced later is never emitted, and a field absent from a later record
renders as `""` (second conjunct). -/
theorem c5_fixed_columns (invoke : List String → Except String OutputMap)
    (varNames s : List String) (rest : List (List String)) (m : OutputMap)
    (hs : invoke s = .ok m) (hm : m ≠ []) :
    ((RunExploration invoke varNames (s :: rest)).rows =
      (true, varNames ++ RecordSortedKeys m) ::
      (false, s ++ (RecordSortedKeys m).map (fun k => mapGet m k)) ::
      expectedDataRows invoke (RecordSortedKeys m) rest) ∧
    (∀ (m' : OutputMap) (k : String), (∀ p ∈ m', p.1 ≠ k) → mapGet m' k = "") := by
  refine ⟨?_, mapGet_of_not_mem⟩
  have hov : RecordSortedKeys m ≠ [] := RecordSortedKeys_ne_nil hm
  unfold RunExploration runExplorationLoop
  rw [hs]
  dsimp only
  rw [if_pos rfl, if_pos rfl,
    runExplorationLoop_rows_of_ne invoke varNames (RecordSortedKeys m) hov rest]
  simp

/-- Witness for C5 on a two-tuple run with a one-field record. -/
theorem c5_fixed_columns_witness :
    (RunExploration demoInvoke ["x"] [["1"], ["2"]]).rows =
      (true, ["x"] ++ RecordSortedKeys [("sum", "3")]) ::
      (false, ["1"] ++ (RecordSortedKeys [("sum", "3")]).map
        (fun k => mapGet [("sum", "3")] k)) ::
      expectedDataRows demoInvoke (RecordSortedKeys [("sum", "3")]) [["2"]] :=
  (c5_fixed_columns demoInvoke ["x"] ["1"] [["2"]] [("sum", "3")] rfl (by decide)).1

theorem runExplorationLoop_stops (invoke : List String → Except String OutputMap)
    (varNames : List String) (e : String) :
    ∀ (ov : List String) (pre : List (List String)) (s : List String)
      (post : List (List String)),
    (∀ u ∈ pre, ∃ m, invoke u = .ok m) → invoke s = .error e →
    runExplorationLoop invoke varNames ov (pre ++ s :: post) =
      ⟨pre ++ [s], (runExplorationLoop invoke varNames ov pre).rows, some e⟩
  | ov, [], s, post, _, hs => by
    rw [List.nil_append]
    unfold runExplorationLoop
    rw [hs]
    simp
  | ov, p :: pre, s, post, hpre, hs => by
    obtain ⟨m, hm⟩ := hpre p (by simp)
    have ih := runExplorationLoop_stops invoke varNames e
      (if ov = [] then RecordSortedKeys m else ov) pre s post
      (fun u hu => hpre u (List.mem_cons_of_mem _ hu)) hs
    rw [List.cons_append]
    unfold runExplorationLoop
    rw [hm]
    dsimp only
    rw [ih]
    simp

/-- C6: if every tuple of `pre` succeeds and the invocation of the next tuple
`s` fails with error `e`, `RunExploration` on `pre ++ s :: post` returns `e`,
invokes exactly the tuples of `pre` and then `s` (none of `post`), and the rows
emitted are exactly those of the successful run on `pre` alone — rows emitted
before the failure are unaffected and none are emitted after it. -/
theorem c6_fail_fast (invoke : List String → Except String OutputMap)
    (varNames : List String) (pre : List (List String)) (s : List String)
    (post : List (List String)) (e : String)
    (hpre : ∀ u ∈ pre, ∃ m, invoke u = .ok m) (hs : invoke s = .error e) :
    RunExploration invoke varNames (pre ++ s :: post) =
      ⟨pre ++ [s], (RunExploration invoke varNames pre).rows, some e⟩ :=
  runExplorationLoop_stops invoke varNames e [] pre s post hpre hs

/-- Oracle for the C6 witness: fails exactly on the tuple `["2"]`. -/
def failInvoke : List String → Except String OutputMap :=
  fun s => if s = ["2"] then .error "boom" else .ok [("r", "0")]

/-- Witness for C6: failure at the second of three tuples. -/
theorem c6_fail_fast_witness :
    RunExploration failInvoke ["x"] [["1"], ["2"], ["3"]] =
      ⟨[["1"], ["2"]], (RunExploration failInvoke ["x"] [["1"]]).rows, some "boom"⟩ :=
  c6_fail_fast failInvoke ["x"] [["1"]] ["2"] [["3"]] "boom"
    (fun u hu => by
      have : u = ["1"] := by simpa using hu
      subst this
      exact ⟨[("r", "0")], rfl⟩)
    rfl

/-- Instrumented result of `RecordResults` (main.go lines 228-251): the write
attempts issued, in order, each as (destination row position, row content), and
the returned error.  `write` is the oracle for the sheet `Update` call at
address `A<position>`; the Go conversion of the row to `[]interface{}` inside a
`ValueRange` carries the same cells and is modelled away. -/
def recordResultsLoop (write : Nat → List String → Except String Unit) :
    Nat → List (List String) → List (Nat × List String) × Option String
  | _, [] => ([], none)
  | currentLine, resultLine :: rest =>
    match write currentLine resultLine with
    | .error e => ([(currentLine, resultLine)], some e)
    | .ok _ =>
      let t := recordResultsLoop write (currentLine + 1) rest
      ((currentLine, resultLine) :: t.1, t.2)

/-- `RecordResults` starts writing at row position 1 (`currentLine := 1`). -/
def RecordResults (write : Nat → List String → Except String Unit)
    (rows : List (List String)) : List (Nat × List String) × Option String :=
  recordResultsLoop write 1 rows

theorem recordResultsLoop_all_ok (write : Nat → List String → Except String Unit) :
    ∀ (rows : List (List String)) (n : Nat),
    (∀ p ∈ (List.range' n rows.length).zip rows, write p.1 p.2 = .ok ()) →
    recordResultsLoop write n rows = ((List.range' n rows.length).zip rows, none)
  | [], _, _ => rfl
  | r :: rest, n, h => by
    have hr : write n r = .ok () := h (n, r) (by simp [List.range'_succ])
    unfold recordResultsLoop
    rw [hr]
    dsimp only
    rw [recordResultsLoop_all_ok write rest (n + 1)
      (fun p hp => h p (by simp [List.range'_succ, hp]))]
    simp [List.range'_succ]

theorem recordResultsLoop_stops (write : Nat → List String → Except String Unit)
    (e : String) :
    ∀ (pre : List (List String)) (n : Nat) (r : List String)
      (post : List (List String)),
    (∀ p ∈ (List.range' n pre.length).zip pre, write p.1 p.2 = .ok ()) →
    write (n + pre.length) r = .error e →
    recordResultsLoop write n (pre ++ r :: post) =
      ((List.range' n pre.length).zip pre ++ [(n + pre.length, r)], some e)
  | [], n, r, post, _, hr => by
    rw [List.nil_append]
    unfold recordResultsLoop
    rw [show n + List.length [] = n from rfl] at hr
    rw [hr]
    rfl
  | p :: pre, n, r, post, h, hr => by
    have hp : write n p = .ok () := h (n, p) (by simp [List.range'_succ])
    rw [List.cons_append]
    unfold recordResultsLoop
    rw [hp]
    dsimp only
    rw [recordResultsLoop_stops write e pre (n + 1) r post
      (fun q hq => h q (by simp [List.range'_succ, hq]))
      (by rw [show n + 1 + pre.length = n + (p :: pre).length by simp; omega]; exact hr)]
    simp [List.range'_succ]
    omega

/-- C7: `RecordResults` writes the N-th received row at destination position N,
starting at 1 and advancing by one per row — never skipping, duplicating,
reordering or batching.  When every write succeeds the performed writes are
exactly the received rows paired with positions 1..N in order; when a write
first fails, the attempts are exactly the successful prefix plus the failing
attempt at the next position, that error is returned, and no later row is
consumed. -/
theorem c7_sequential_persistence (write : Nat → List String → Except String Unit) :
    (∀ rows : List (List String),
      (∀ p ∈ (List.range' 1 rows.length).zip rows, write p.1 p.2 = .ok ()) →
      RecordResults write rows = ((List.range' 1 rows.length).zip rows, none)) ∧
    (∀ (pre : List (List String)) (r : List String) (post : List (List String))
      (e : String),
      (∀ p ∈ (List.range' 1 pre.length).zip pre, write p.1 p.2 = .ok ()) →
      write (1 + pre.length) r = .error e →
      RecordResults write (pre ++ r :: post) =
        ((List.range' 1 pre.length).zip pre ++ [(1 + pre.length, r)], some e)) :=
  ⟨fun rows h => recordResultsLoop_all_ok write rows 1 h,
    fun pre r post e h hr => recordResultsLoop_stops write e pre 1 r post h hr⟩

/-- Write oracle for the C7 witness: every write succeeds. -/
def w7ok : Nat → List String → Except String Unit := fun _ _ => .ok ()

/-- Write oracle for the C7 witness: the write at position 3 fails. -/
def w7fail : Nat → List String → Except String Unit :=
  fun n _ => if n = 3 then .error "werr" else .ok ()

/-- Witness for C7: three rows persisted at positions 1,2,3; and a failure at
position 3 stops after attempting exactly positions 1,2,3. -/
theorem c7_sequential_persistence_witness :
    RecordResults w7ok [["h"], ["r1"], ["r2"]] =
      ([(1, ["h"]), (2, ["r1"]), (3, ["r2"])], none) ∧
    RecordResults w7fail [["h"], ["r1"], ["r2"]] =
      ([(1, ["h"]), (2, ["r1"]), (3, ["r2"])], some "werr") :=
  ⟨(c7_sequential_persistence w7ok).1 [["h"], ["r1"], ["r2"]] (fun p _ => rfl),
    (c7_sequential_persistence w7fail).2 [["h"], ["r1"]] ["r2"] [] "werr"
      (by intro p hp; fin_cases hp <;> rfl) rfl⟩

/-- `RunBlackBoxCmd` (main.go lines 196-226) with the external world as
oracles: `stdinPipe` is the outcome of `cmd.StdinPipe()`; `writeResult` the
outcome of the goroutine's `stdin.Write(jsonBytes)`, whose return values the
code discards (line 213); `output` the outcome of `cmd.Output()`, where a
launch failure or a non-zero exit surfaces; `decode` the outcome of
`json.Unmarshal` of the output bytes into a `map[string]string`.
`json.Marshal` of a `map[string]string` cannot fail, so its error branch is
dead and not modelled; the request mapping `varNames[i] ↦ inputSet[i]` flows
only to the writer goroutine, whose outcome is the `writeResult` oracle. -/
def RunBlackBoxCmd (stdinPipe : Except String Unit)
    (writeResult : Except String Nat)
    (output : Except String String)
    (decode : String → Except String OutputMap)
    (varNames inputSet : List String) : Except String OutputMap :=
  let _inputMap : OutputMap := varNames.zip inputSet
  match stdinPipe with
  | .error e => .error e
  | .ok _ =>
    match output with
    | .error e => .error e
    | .ok out => decode out

/-- C8: the invocation returns an error exactly when the pipe cannot be set up,
the child fails to launch or exits non-zero (both surface through the
`cmd.Output` outcome — a timeout, should the operator impose one externally,
can only surface there too), or the output does not decode as a flat
string-to-string mapping; when none of these occur it returns the decoded
mapping. -/
theorem c8_error_conditions (stdinPipe : Except String Unit)
    (writeResult : Except String Nat) (output : Except String String)
    (decode : String → Except String OutputMap) (varNames inputSet : List String) :
    ((∃ e, RunBlackBoxCmd stdinPipe writeResult output decode varNames inputSet =
        .error e) ↔
      (∃ e, stdinPipe = .error e) ∨ (∃ e, output = .error e) ∨
      (∃ out e, output = .ok out ∧ decode out = .error e)) ∧
    (∀ (out : String) (m : OutputMap), stdinPipe = .ok () → output = .ok out →
      decode out = .ok m →
      RunBlackBoxCmd stdinPipe writeResult output decode varNames inputSet = .ok m) := by
  constructor
  · cases stdinPipe with
    | error e => simp [RunBlackBoxCmd]
    | ok u =>
      cases output with
      | error e => simp [RunBlackBoxCmd]
      | ok out =>
        cases hd : decode out with
        | error e => simp [RunBlackBoxCmd, hd]
        | ok m => simp [RunBlackBoxCmd, hd]
  · intro out m hpipe hout hdec
    rw [hpipe, hout]
    simpa [RunBlackBoxCmd] using hdec

/-- Witness for C8: all stages succeed and the decoded mapping is returned. -/
theorem c8_error_conditions_witness :
    RunBlackBoxCmd (.ok ()) (.ok 2) (.ok "out")
      (fun _ => .ok [("a", "1")]) ["v"] ["1"] = .ok [("a", "1")] :=
  (c8_error_conditions (.ok ()) (.ok 2) (.ok "out")
    (fun _ => .ok [("a", "1")]) ["v"] ["1"]).2 "out" [("a", "1")] rfl rfl rfl

/-- C9 (counterexample): a failing stdin write alongside a successfully exiting
and successfully decoded child: the invocation still returns success, so the
write error is not surfaced even though the reader did not fail. -/
theorem c9_write_error_counterexample :
    RunBlackBoxCmd (.ok ()) (.error "write failed") (.ok "out")
      (fun _ => .ok [("a", "1")]) ["v"] ["1"] = .ok [("a", "1")] := rfl

/-- C9 (amended): the stdin-writer task is fire-and-forget — the code discards
the `stdin.Write` return values and never joins the goroutine, so the
invocation's result is independent of the write outcome. -/
theorem c9_write_outcome_ignored (stdinPipe : Except String Unit)
    (w w' : Except String Nat) (output : Except String String)
    (decode : String → Except String OutputMap) (varNames inputSet : List String) :
    RunBlackBoxCmd stdinPipe w output decode varNames inputSet =
      RunBlackBoxCmd stdinPipe w' output decode varNames inputSet := rfl

/-- `GetVarsExamplesSets` (main.go lines 165-185).  The Go body indexes
`setupRow[0]` and `setupRow[1]` unguarded before any validation, so a row with
fewer than two cells panics: `none` models that panic.  On a configuration
error Go also returns the partially accumulated lists, which callers never
read; the model keeps only the error. -/
def getVarsLoop : Nat → List (List String) →
    Option (Except String (List String × List (List String)))
  | _, [] => some (.ok ([], []))
  | i, (varCell :: examplesCell :: _) :: rest =>
    let varName := goTrim ['\t', ' ', '\n'] varCell
    if varName = "" then
      some (.error ("Could not extract var name from row " ++ toString i))
    else
      let examples := ExtractExamples examplesCell
      if examples = [] then
        some (.error ("Could not extract examples from row " ++ toString i))
      else
        match getVarsLoop (i + 1) rest with
        | none => none
        | some (.error e) => some (.error e)
        | some (.ok (vars, sets)) => some (.ok (varName :: vars, examples :: sets))
  | _, _ :: _ => none

/-- `GetVarsExamplesSets` walks the setup rows from index 0. -/
def GetVarsExamplesSets (setupRows : List (List String)) :
    Option (Except String (List String × List (List String))) :=
  getVarsLoop 0 setupRows

theorem getVarsLoop_ne_none : ∀ (i : Nat) (rows : List (List String)),
    (∀ r ∈ rows, 2 ≤ r.length) → getVarsLoop i rows ≠ none
  | _, [], _ => by simp [getVarsLoop]
  | i, row :: rest, h => by
    obtain ⟨a, b, rs, rfl⟩ : ∃ a b rs, row = a :: b :: rs := by
      match row, h row (by simp) with
      | a :: b :: rs, _ => exact ⟨a, b, rs, rfl⟩
    unfold getVarsLoop
    by_cases hv : goTrim ['\t', ' ', '\n'] a = ""
    · simp [hv]
    · by_cases he : ExtractExamples b = []
      · simp [hv, he]
      · cases hrec : getVarsLoop (i + 1) rest with
        | none =>
          exact absurd hrec (getVarsLoop_ne_none (i + 1) rest
            (fun r hr => h r (List.mem_cons_of_mem _ hr)))
        | some v =>
          cases v with
          | error e => simp [hv, he, hrec]
          | ok p =>
            obtain ⟨vs, ss⟩ := p
            simp [hv, he, hrec]

/-- C10: when every setup row has at least two cells, `GetVarsExamplesSets`
never performs an out-of-bounds access (never panics); but whenever the row it
is processing has fewer than two cells it panics instead of returning a
configuration error naming that row — shown here for a short row in first
position, where processing always reaches it. -/
theorem c10_short_row_panics :
    (∀ rows : List (List String), (∀ r ∈ rows, 2 ≤ r.length) →
      GetVarsExamplesSets rows ≠ none) ∧
    (∀ (r : List String) (rest : List (List String)), r.length < 2 →
      GetVarsExamplesSets (r :: rest) = none) := by
  constructor
  · exact fun rows h => getVarsLoop_ne_none 0 rows h
  · intro r rest hr
    match r, hr with
    | [], _ => rfl
    | [x], _ => rfl

/-- Witness for C10: a well-formed single row parses without panic; a
one-celled row panics. -/
theorem c10_short_row_panics_witness :
    GetVarsExamplesSets [["a", "1"]] ≠ none ∧
    GetVarsExamplesSets [["x"]] = none :=
  ⟨c10_short_row_panics.1 [["a", "1"]] (by decide),
    c10_short_row_panics.2 ["x"] [] (by decide)⟩

end Blackbox
